import Mathlib

/-!
Verification of the keypecker firmware specification against a shallow
embedding of its C sources (src/kp_cap.c, src/kp_act.c, src/kp_input.c,
src/kp_sample.c, src/kp_meas.c, src/kp.c).

Conventions of the embedding:
* C `uint32_t` / `size_t` values are `Nat`, with `% 2^32` (or the relevant
  bit width) inserted exactly where C overflow or bit-field truncation can
  occur; C `int32_t` actuator positions are `Int`, with C integer division
  (truncation towards zero) rendered as `Int.tdiv`.
* Fixed-size C arrays iterated with `for (i = 0; i < ARRAY_SIZE; i++)` are
  lists walked by structural recursion, in the same element order.
* Zephyr blocking primitives are made explicit: a call that can block
  forever returns an `Option`, with `none` meaning "blocks / does not
  return"; semaphore state that a function reads is passed as an argument.
-/

namespace Keypecker

/-! ### Capture direction sets (src/kp_cap.h) -/

/-- Timer resolution, microseconds (`KP_CAP_RES_US`). -/
def KP_CAP_RES_US : Nat := 20

/-- Maximum time capture of all selected channels can take, us
(`KP_CAP_TIME_MAX_US = KP_CAP_RES_US * UINT16_MAX`). -/
def KP_CAP_TIME_MAX_US : Nat := KP_CAP_RES_US * 65535

/-- Number of available capture channels (`KP_CAP_CH_NUM`). -/
def KP_CAP_CH_NUM : Nat := 2

/-- `KP_CAP_DIRS_NONE`: the empty direction set (bitmap). -/
def KP_CAP_DIRS_NONE : Nat := 0

/-- `KP_CAP_DIRS_UP`: the unit direction set for "up" (bitmap). -/
def KP_CAP_DIRS_UP : Nat := 1

/-- `KP_CAP_DIRS_DOWN`: the unit direction set for "down" (bitmap). -/
def KP_CAP_DIRS_DOWN : Nat := 2

/-- `KP_CAP_DIRS_BOTH`: both directions (bitmap). -/
def KP_CAP_DIRS_BOTH : Nat := 3

/-- `kp_cap_dirs_is_valid`: a direction set is valid when no bit outside
`KP_CAP_DIRS_BOTH` is set. -/
def kp_cap_dirs_is_valid (dirs : Nat) : Prop :=
  dirs &&& (15 - KP_CAP_DIRS_BOTH) = 0 ∧ dirs < 16

instance (dirs : Nat) : Decidable (kp_cap_dirs_is_valid dirs) := by
  unfold kp_cap_dirs_is_valid; infer_instance

/-- `kp_cap_dirs_from_down`: unit direction set from a boolean direction
("down" when true): `KP_CAP_DIRS_UP + down`. -/
def kp_cap_dirs_from_down (down : Bool) : Nat :=
  KP_CAP_DIRS_UP + (if down then 1 else 0)

/-! ### Capture channel / capture configuration (src/kp_cap.h) -/

/-- `struct kp_cap_ch_conf`: per-channel capture configuration. -/
structure KpCapChConf where
  /-- The movement directions to capture in (bitmap). -/
  dirs : Nat
  /-- True for rising-edge capture, false for falling-edge. -/
  rising : Bool
  /-- User's channel name. -/
  name : String
deriving DecidableEq, Repr

/-- `struct kp_cap_conf`: capture configuration.  The C `ch_list` is a
`KP_CAP_CH_NUM`-element array; it is embedded as a list walked in index
order. -/
structure KpCapConf where
  ch_list : List KpCapChConf
  timeout_us : Nat
  bounce_us : Nat
deriving DecidableEq, Repr

/-- `kp_cap_conf_is_valid`: the C check `timeout_us + bounce_us <=
KP_CAP_TIME_MAX_US`, plus the array-size fact `|ch_list| = KP_CAP_CH_NUM`
that the C type system provides. -/
def kp_cap_conf_is_valid (conf : KpCapConf) : Prop :=
  conf.ch_list.length = KP_CAP_CH_NUM ∧
  conf.timeout_us + conf.bounce_us ≤ KP_CAP_TIME_MAX_US

instance (conf : KpCapConf) : Decidable (kp_cap_conf_is_valid conf) := by
  unfold kp_cap_conf_is_valid; infer_instance

/-- The loop of `kp_cap_conf_ch_num` (src/kp_cap.c:162-175): count the
channels whose direction set intersects `dirs`, in array order. -/
def kp_cap_conf_ch_num_loop (ch_list : List KpCapChConf) (dirs : Nat) : Nat :=
  match ch_list with
  | [] => 0
  | c :: rest =>
    (if c.dirs &&& dirs ≠ 0 then 1 else 0) + kp_cap_conf_ch_num_loop rest dirs

/-- `kp_cap_conf_ch_num` (src/kp_cap.c:162-175). -/
def kp_cap_conf_ch_num (conf : KpCapConf) (dirs : Nat) : Nat :=
  kp_cap_conf_ch_num_loop conf.ch_list dirs

/-- The loop of `kp_cap_conf_ch_res_idx` (src/kp_cap.c:192-216).  Walks the
channel array accumulating `round_ch_res_num` (first component: number of
channel results per round of two passes) and `pass_ch_res_idx` (second
component: the channel result index within this pass); `i` is the C loop
index. -/
def kp_cap_conf_ch_res_idx_loop (ch_list : List KpCapChConf) (even_down : Bool)
    (odd_pass : Bool) (ch : Nat) (i : Nat) : Nat × Nat :=
  match ch_list with
  | [] => (0, 0)
  | c :: rest =>
    let acc := kp_cap_conf_ch_res_idx_loop rest even_down odd_pass ch (i + 1)
    ((if c.dirs &&& KP_CAP_DIRS_UP ≠ 0 then 1 else 0) +
       (if c.dirs &&& KP_CAP_DIRS_DOWN ≠ 0 then 1 else 0) + acc.1,
     (if odd_pass ∧ c.dirs &&& kp_cap_dirs_from_down even_down ≠ 0
        then 1 else 0) +
       (if i < ch ∧ c.dirs &&& kp_cap_dirs_from_down (xor even_down odd_pass) ≠ 0
          then 1 else 0) + acc.2)

/-- `kp_cap_conf_ch_res_idx` (src/kp_cap.c:177-218): the index of the
channel capture result for `(pass, ch)` in the flat result array, given the
direction of even passes. -/
def kp_cap_conf_ch_res_idx (conf : KpCapConf) (even_down : Bool)
    (pass : Nat) (ch : Nat) : Nat :=
  let odd_pass := decide (pass % 2 = 1)
  let acc := kp_cap_conf_ch_res_idx_loop conf.ch_list even_down odd_pass ch 0
  acc.1 * (pass / 2) + acc.2

/-! Helper lemmas about the `kp_cap_conf_ch_res_idx` loop. -/

/-- With `ch = 0`, the pass-local index counts exactly the channels enabled
in the even-pass direction, and only on odd passes. -/
theorem ch_res_idx_loop_snd_zero (ch_list : List KpCapChConf) (even_down : Bool)
    (odd_pass : Bool) (i : Nat) :
    (kp_cap_conf_ch_res_idx_loop ch_list even_down odd_pass 0 i).2 =
      if odd_pass then
        kp_cap_conf_ch_num_loop ch_list (kp_cap_dirs_from_down even_down)
      else 0 := by
  induction ch_list generalizing i with
  | nil => cases odd_pass <;> simp [kp_cap_conf_ch_res_idx_loop,
      kp_cap_conf_ch_num_loop]
  | cons c rest ih =>
    cases odd_pass <;>
      simp [kp_cap_conf_ch_res_idx_loop, kp_cap_conf_ch_num_loop, ih]

/-- The per-round result count is the number of up-enabled channels plus
the number of down-enabled channels, independently of the other loop
parameters. -/
theorem ch_res_idx_loop_fst (ch_list : List KpCapChConf) (even_down : Bool)
    (odd_pass : Bool) (ch : Nat) (i : Nat) :
    (kp_cap_conf_ch_res_idx_loop ch_list even_down odd_pass ch i).1 =
      kp_cap_conf_ch_num_loop ch_list KP_CAP_DIRS_UP +
      kp_cap_conf_ch_num_loop ch_list KP_CAP_DIRS_DOWN := by
  induction ch_list generalizing i with
  | nil => simp [kp_cap_conf_ch_res_idx_loop, kp_cap_conf_ch_num_loop]
  | cons c rest ih =>
    simp only [kp_cap_conf_ch_res_idx_loop, kp_cap_conf_ch_num_loop, ih]
    omega

/-- The two unit direction sets are `kp_cap_dirs_from_down b` and
`kp_cap_dirs_from_down !b`, in one order or the other. -/
theorem ch_num_loop_up_add_down (ch_list : List KpCapChConf) (b : Bool) :
    kp_cap_conf_ch_num_loop ch_list KP_CAP_DIRS_UP +
      kp_cap_conf_ch_num_loop ch_list KP_CAP_DIRS_DOWN =
    kp_cap_conf_ch_num_loop ch_list (kp_cap_dirs_from_down b) +
      kp_cap_conf_ch_num_loop ch_list (kp_cap_dirs_from_down !b) := by
  cases b
  · simp [kp_cap_dirs_from_down, KP_CAP_DIRS_UP, KP_CAP_DIRS_DOWN]
  · simp [kp_cap_dirs_from_down, KP_CAP_DIRS_UP, KP_CAP_DIRS_DOWN]
    omega

/-- C1.  Index law: advancing one pass at channel 0 advances the flat
result index by the number of channels enabled in the direction of pass
`p`, namely `kp_cap_dirs_from_down (even_down XOR (p mod 2))`. -/
theorem kp_cap_conf_ch_res_idx_pass_succ (conf : KpCapConf)
    (_hvalid : kp_cap_conf_is_valid conf) (even_down : Bool) (p : Nat) :
    kp_cap_conf_ch_res_idx conf even_down (p + 1) 0 =
      kp_cap_conf_ch_res_idx conf even_down p 0 +
      kp_cap_conf_ch_num conf
        (kp_cap_dirs_from_down (xor even_down (decide (p % 2 = 1)))) := by
  unfold kp_cap_conf_ch_res_idx kp_cap_conf_ch_num
  rcases Nat.even_or_odd p with ⟨k, hk⟩ | ⟨k, hk⟩
  · have h1 : p % 2 = 0 := by omega
    have h2 : (p + 1) % 2 = 1 := by omega
    have h3 : (p + 1) / 2 = p / 2 := by omega
    simp only [h1, h2, h3]
    rw [ch_res_idx_loop_snd_zero, ch_res_idx_loop_snd_zero, ch_res_idx_loop_fst,
      ch_res_idx_loop_fst]
    simp
  · have h1 : p % 2 = 1 := by omega
    have h2 : (p + 1) % 2 = 0 := by omega
    have h3 : (p + 1) / 2 = p / 2 + 1 := by omega
    simp only [h1, h2, h3]
    rw [ch_res_idx_loop_snd_zero, ch_res_idx_loop_snd_zero, ch_res_idx_loop_fst,
      ch_res_idx_loop_fst]
    simp only [decide_True, if_true, if_false, Bool.xor_true, reduceIte]
    rw [ch_num_loop_up_add_down conf.ch_list even_down]
    cases even_down <;> simp <;> ring

/-- Witness for C1 at a concrete two-channel configuration. -/
theorem kp_cap_conf_ch_res_idx_pass_succ_witness :
    kp_cap_conf_is_valid
      { ch_list := [⟨3, true, ""⟩, ⟨1, false, ""⟩],
        timeout_us := 1000000, bounce_us := 50000 } ∧
    kp_cap_conf_ch_res_idx
      { ch_list := [⟨3, true, ""⟩, ⟨1, false, ""⟩],
        timeout_us := 1000000, bounce_us := 50000 } false 2 0 =
      kp_cap_conf_ch_res_idx
        { ch_list := [⟨3, true, ""⟩, ⟨1, false, ""⟩],
          timeout_us := 1000000, bounce_us := 50000 } false 1 0 +
      kp_cap_conf_ch_num
        { ch_list := [⟨3, true, ""⟩, ⟨1, false, ""⟩],
          timeout_us := 1000000, bounce_us := 50000 }
        (kp_cap_dirs_from_down (xor false (decide (1 % 2 = 1)))) :=
  ⟨by decide, kp_cap_conf_ch_res_idx_pass_succ _ (by decide) false 1⟩

/-! ### Actuator step scheduler timings (src/kp_act.c) -/

/-- `KP_ACT_MOVE_TIMER_PERIOD_MIN_US` (src/kp_act.c:157). -/
def KP_ACT_MOVE_TIMER_PERIOD_MIN_US : Nat := 400

/-- `KP_ACT_MOVE_TIMER_PERIOD_MAX_US` (src/kp_act.c:160). -/
def KP_ACT_MOVE_TIMER_PERIOD_MAX_US : Nat := 4000

/-- `turn_delay_us` as computed by `kp_act_start_move`
(src/kp_act.c:277-281): the minimum delay between the last step of the
previous move and the first step of a move in the opposite direction,
`(MIN + ((MAX - MIN) * speed) / 100) * 2`. -/
def kp_act_turn_delay_us (speed : Nat) : Nat :=
  (KP_ACT_MOVE_TIMER_PERIOD_MIN_US +
     ((KP_ACT_MOVE_TIMER_PERIOD_MAX_US - KP_ACT_MOVE_TIMER_PERIOD_MIN_US) *
        speed) / 100) * 2

/-- `period_us` as computed by `kp_act_start_move` (src/kp_act.c:298-301):
the step-timer period, `MAX - ((MAX - MIN) * speed) / 100`. -/
def kp_act_period_us (speed : Nat) : Nat :=
  KP_ACT_MOVE_TIMER_PERIOD_MAX_US -
    ((KP_ACT_MOVE_TIMER_PERIOD_MAX_US - KP_ACT_MOVE_TIMER_PERIOD_MIN_US) *
       speed) / 100

/-- The initial timer delay imposed by `kp_act_start_move`
(src/kp_act.c:269-295) on a move from `pos` to `target` (`target ≠ pos`),
where `last_positive` is the direction of the last emitted step and
`elapsed_us` the microseconds since its timestamp: when the new direction
differs from `last_positive` and less than `turn_delay_us` has elapsed,
the timer start is delayed by the remainder; otherwise it starts
immediately (`K_NO_WAIT`). -/
def kp_act_start_move_first_delay_us (pos target : Int) (last_positive : Bool)
    (speed elapsed_us : Nat) : Nat :=
  if decide (target > pos) ≠ last_positive then
    if elapsed_us < kp_act_turn_delay_us speed then
      kp_act_turn_delay_us speed - elapsed_us
    else 0
  else 0

/-- C2, counterexample: at speed 0, for a direction-reversing move with the
last step just emitted, the delay imposed before the first step (measured
from the last step's timestamp) is 800 us, while twice the current step
period is 8000 us — the claimed equality `turn_delay = 2 × period` fails. -/
theorem kp_act_turn_delay_ne_two_periods :
    kp_act_start_move_first_delay_us 0 1 false 0 0 = 800 ∧
    2 * kp_act_period_us 0 = 8000 ∧
    kp_act_start_move_first_delay_us 0 1 false 0 0 ≠ 2 * kp_act_period_us 0 := by
  refine ⟨by decide, by decide, by decide⟩

/-- C2, amended.  Before the first step of a move whose direction differs
from that of the last emitted step, the scheduler delays so that the first
step comes `2 × (min + (max - min) × speed / 100)` microseconds after the
timestamp of the last step (not `2 ×` the step period, which the turn
delay equals only at speed 50). -/
theorem kp_act_start_move_turn_delay (pos target : Int) (last_positive : Bool)
    (speed elapsed_us : Nat)
    (hdir : decide (target > pos) ≠ last_positive)
    (helapsed : elapsed_us ≤ kp_act_turn_delay_us speed) :
    (elapsed_us + kp_act_start_move_first_delay_us pos target last_positive
        speed elapsed_us =
      2 * (KP_ACT_MOVE_TIMER_PERIOD_MIN_US +
        (KP_ACT_MOVE_TIMER_PERIOD_MAX_US - KP_ACT_MOVE_TIMER_PERIOD_MIN_US) *
          speed / 100)) ∧
    (∀ s : Nat, kp_act_turn_delay_us s = 2 * kp_act_period_us s ↔ s = 50) := by
  constructor
  · have hturn : kp_act_turn_delay_us speed =
        2 * (KP_ACT_MOVE_TIMER_PERIOD_MIN_US +
          (KP_ACT_MOVE_TIMER_PERIOD_MAX_US - KP_ACT_MOVE_TIMER_PERIOD_MIN_US) *
            speed / 100) := by
      unfold kp_act_turn_delay_us; ring
    unfold kp_act_start_move_first_delay_us
    rw [if_pos hdir, ← hturn]
    split <;> omega
  · intro s
    unfold kp_act_turn_delay_us kp_act_period_us
    unfold KP_ACT_MOVE_TIMER_PERIOD_MIN_US KP_ACT_MOVE_TIMER_PERIOD_MAX_US
    omega

/-- Witness for the amended C2 at a concrete input (speed 0, reversal right
after the last step). -/
theorem kp_act_start_move_turn_delay_witness :
    0 + kp_act_start_move_first_delay_us 0 1 false 0 0 =
      2 * (KP_ACT_MOVE_TIMER_PERIOD_MIN_US +
        (KP_ACT_MOVE_TIMER_PERIOD_MAX_US - KP_ACT_MOVE_TIMER_PERIOD_MIN_US) *
          0 / 100) :=
  (kp_act_start_move_turn_delay 0 1 false 0 0 (by decide) (by decide)).1

/-! ### Input dispatcher (src/kp_input.c) -/

/-- `enum kp_input_msg` (src/kp_input.h). -/
inductive KpInputMsg where
  | ABORT
  | UP
  | DOWN
  | ENTER
deriving DecidableEq, Repr

/-- `enum kp_input_st` (src/kp_input.c:21-30). -/
inductive KpInputSt where
  | NONE
  | ESC
  | CSI
  | CSI_INT
deriving DecidableEq, Repr

/-- Capacity of `kp_input_msgq` (src/kp_input.c:17-18): 16 messages. -/
def KP_INPUT_MSGQ_CAP : Nat := 16

/-- `k_msgq_put(&kp_input_msgq, &msg, K_FOREVER)`: append the message when
the queue has free space; when the queue is full, `K_FOREVER` makes the
caller wait (block) until space appears, modelled as `none`. -/
def k_msgq_put_forever (q : List KpInputMsg) (msg : KpInputMsg) :
    Option (List KpInputMsg) :=
  if q.length < KP_INPUT_MSGQ_CAP then some (q ++ [msg]) else none

/-- The shared `CSI` / `CSI_INT` final-byte handling of `kp_input_recv`
(src/kp_input.c:90-113): given the current state and the byte, the message
to enqueue (if any) and the next state.  `'A' = 0x41`, `'B' = 0x42`;
`b >> 4 == 2` marks an intermediate byte, `b >> 4 == 3` a parameter
byte (on which the state is left as it is). -/
def kp_input_recv_csi_step (st : KpInputSt) (b : Nat) :
    Option KpInputMsg × KpInputSt :=
  if b = 0x41 then (some .UP, .NONE)
  else if b = 0x42 then (some .DOWN, .NONE)
  else if b / 16 = 2 then (none, .CSI_INT)
  else if b / 16 ≠ 3 then (none, .NONE)
  else (none, st)

/-- `kp_input_recv` (src/kp_input.c:44-118): decode a buffer of raw bytes,
threading the decoder state `st` and the message queue `q`.  Every enqueue
uses `K_FOREVER`, so a full queue blocks the call (`none`).  On an ETX
(Ctrl-C, 0x03) in the base state the function enqueues `ABORT`, unlocks and
returns immediately, dropping the rest of the buffer
(src/kp_input.c:54-58). -/
def kp_input_recv (st : KpInputSt) (q : List KpInputMsg) (data : List Nat) :
    Option (KpInputSt × List KpInputMsg) :=
  match data with
  | [] => some (st, q)
  | b :: rest =>
    match st with
    | .NONE =>
      if b = 0x03 then
        match k_msgq_put_forever q .ABORT with
        | some q' => some (st, q')
        | none => none
      else if b = 0x0d then
        match k_msgq_put_forever q .ENTER with
        | some q' => kp_input_recv st q' rest
        | none => none
      else if b = 0x1b then kp_input_recv .ESC q rest
      else kp_input_recv st q rest
    | .ESC =>
      if b = 0x5b then kp_input_recv .CSI q rest
      else kp_input_recv .NONE q rest
    | .CSI_INT =>
      if b / 16 = 3 then kp_input_recv .NONE q rest
      else
        match kp_input_recv_csi_step .CSI_INT b with
        | (some msg, st') =>
          match k_msgq_put_forever q msg with
          | some q' => kp_input_recv st' q' rest
          | none => none
        | (none, st') => kp_input_recv st' q rest
    | .CSI =>
      match kp_input_recv_csi_step .CSI b with
      | (some msg, st') =>
        match k_msgq_put_forever q msg with
        | some q' => kp_input_recv st' q' rest
        | none => none
      | (none, st') => kp_input_recv st' q rest

/-- C3 (code bug): at the failing input — the 16-entry message queue full
and an Enter byte (0x0D) arriving in the base state — `kp_input_recv` does
not return: `k_msgq_put(..., K_FOREVER)` makes it wait for queue space,
blocking the byte producer, instead of dropping the message and leaving
the queue unchanged. -/
theorem kp_input_recv_full_queue_blocks :
    kp_input_recv .NONE (List.replicate 16 .ABORT) [0x0d] = none := by
  decide

/-- C10.  An ETX byte (Ctrl-C, 0x03) decoded in the base state enqueues
`ABORT` and makes `kp_input_recv` return immediately: the remaining bytes
of the buffer (`rest`) are discarded — in particular a following 0x0D
produces no `ENTER` message — and the decoder state stays `NONE`.
(The queue must have free space; a full queue blocks, see C3.) -/
theorem kp_input_recv_abort_returns (q : List KpInputMsg)
    (rest : List Nat) (hroom : q.length < KP_INPUT_MSGQ_CAP) :
    kp_input_recv .NONE q (0x03 :: rest) = some (.NONE, q ++ [.ABORT]) := by
  unfold kp_input_recv k_msgq_put_forever
  rw [if_pos hroom]
  simp

/-- Witness for C10: Ctrl-C followed by Enter in one buffer yields only the
`ABORT` message. -/
theorem kp_input_recv_abort_returns_witness :
    kp_input_recv .NONE [] [0x03, 0x0d] = some (.NONE, [.ABORT]) :=
  kp_input_recv_abort_returns [] [0x0d] (by decide)

/-! ### Channel capture results (src/kp_cap.h) -/

/-- `enum kp_cap_ch_status` (values 0, 1, 2). -/
inductive KpCapChStatus where
  | TIMEOUT
  | OK
  | OVERCAPTURE
deriving DecidableEq, Repr

/-- `struct kp_cap_ch_res`: a 2-bit status and a 30-bit `value_us`
bit-field. -/
structure KpCapChRes where
  status : KpCapChStatus
  value_us : Nat
deriving DecidableEq, Repr

/-- A `struct kp_cap_ch_res` with all bits zero, as produced by
`memset(..., 0, ...)`: status bits 0 decode to `TIMEOUT` (the enum's
value 0), `value_us` bits 0 to 0. -/
def kpCapChResZero : KpCapChRes := ⟨.TIMEOUT, 0⟩

/-- `enum kp_cap_rc` (src/kp_cap.h). -/
inductive KpCapRc where
  | OK
  | ABORTED
  | TIMEOUT
deriving DecidableEq, Repr

/-! ### Capture finish (src/kp_cap.c:341-416) -/

/-- The capture-engine state `kp_cap_finish` reads: per-channel, whether
the compare/capture channel is enabled (`LL_TIM_CC_IsEnabledChannel`), the
capture flag (`SR & CCxIF`), the overcapture flag (`SR & CCxOF`), and the
captured counter value (`CCRx`, a 16-bit register read as `uint32_t`). -/
structure KpCapChState where
  enabled : Bool
  ccif : Bool
  ccof : Bool
  ccr : Nat
deriving DecidableEq, Repr

/-- The engine state at `kp_cap_finish` time: the channel array, the
configured timeout in ticks (`kp_cap_timeout_ticks`), the abort flag, and
whether the "done" semaphore is available within the wait timeout. -/
structure KpCapState where
  ch_list : List KpCapChState
  timeout_ticks : Nat
  aborted : Bool
  done : Bool
deriving DecidableEq, Repr

/-- The per-channel result computed by `kp_cap_finish`
(src/kp_cap.c:377-401): if the capture flag is set, the value is
`CCR * KP_CAP_RES_US` (a `uint32_t` product stored into the 30-bit
bit-field), with status OVERCAPTURE when the overcapture flag is set, else
TIMEOUT when the tick count exceeds the timeout in ticks, else OK;
otherwise status TIMEOUT with the `UINT32_MAX` sentinel (truncated by the
30-bit field). -/
def kp_cap_finish_ch_res (timeout_ticks : Nat) (c : KpCapChState) :
    KpCapChRes :=
  if c.ccif then
    let value_ticks := c.ccr
    let value_us := value_ticks * KP_CAP_RES_US % 2 ^ 32
    if c.ccof then ⟨.OVERCAPTURE, value_us % 2 ^ 30⟩
    else if value_ticks > timeout_ticks then ⟨.TIMEOUT, value_us % 2 ^ 30⟩
    else ⟨.OK, value_us % 2 ^ 30⟩
  else ⟨.TIMEOUT, (2 ^ 32 - 1) % 2 ^ 30⟩

/-- The walk of `kp_cap_finish` over the channel array
(src/kp_cap.c:370-410): disabled channels are skipped; each enabled
channel's result is written to the next result slot while slots remain
(`ch_res_num` counting down). -/
def kp_cap_finish_walk (timeout_ticks : Nat) (ch_list : List KpCapChState)
    (ch_res_num : Nat) : List KpCapChRes :=
  match ch_list with
  | [] => []
  | c :: rest =>
    if c.enabled then
      if ch_res_num > 0 then
        kp_cap_finish_ch_res timeout_ticks c ::
          kp_cap_finish_walk timeout_ticks rest (ch_res_num - 1)
      else kp_cap_finish_walk timeout_ticks rest ch_res_num
    else kp_cap_finish_walk timeout_ticks rest ch_res_num

/-- `kp_cap_finish` (src/kp_cap.c:341-416).  `buf` is the caller's result
buffer (its length is `ch_res_num`).  If the "done" semaphore is not taken
in time, return TIMEOUT with the buffer untouched; if the capture was
aborted, ABORTED with the buffer untouched; otherwise the buffer is
zeroed (`memset`) and the enabled channels' results written in index
order, returning OK. -/
def kp_cap_finish (st : KpCapState) (buf : List KpCapChRes) :
    KpCapRc × List KpCapChRes :=
  if !st.done then (.TIMEOUT, buf)
  else if st.aborted then (.ABORTED, buf)
  else
    let w := kp_cap_finish_walk st.timeout_ticks st.ch_list buf.length
    (.OK, w ++ List.replicate (buf.length - w.length) kpCapChResZero)

/-- The walk writes the results of the first `ch_res_num` enabled channels,
in index order. -/
theorem kp_cap_finish_walk_eq (timeout_ticks : Nat)
    (ch_list : List KpCapChState) (n : Nat) :
    kp_cap_finish_walk timeout_ticks ch_list n =
      ((ch_list.filter (·.enabled)).take n).map
        (kp_cap_finish_ch_res timeout_ticks) := by
  induction ch_list generalizing n with
  | nil => simp [kp_cap_finish_walk]
  | cons c rest ih =>
    by_cases hen : c.enabled
    · cases n with
      | zero => simp [kp_cap_finish_walk, hen, ih]
      | succ m => simp [kp_cap_finish_walk, hen, ih]
    · simp [kp_cap_finish_walk, hen, ih]

/-- C6.  For a finished, non-aborted capture whose captured tick counts
come from the 16-bit counter, `kp_cap_finish` returns OK and the result
buffer holds, for the first `|buf|` enabled channels in index order:
value `CCR × 20` us with status OVERCAPTURE when the overcapture flag is
set, else TIMEOUT when `CCR` exceeds the timeout in ticks, else OK, when
the capture flag is set; and status TIMEOUT with the sentinel value
(`UINT32_MAX` truncated to the 30-bit field) when it is not — remaining
slots keeping their `memset` zeros. -/
theorem kp_cap_finish_ok (st : KpCapState) (buf : List KpCapChRes)
    (hdone : st.done = true) (habort : st.aborted = false)
    (hccr : ∀ c ∈ st.ch_list, c.ccr < 2 ^ 16) :
    (kp_cap_finish st buf).1 = .OK ∧
    (kp_cap_finish st buf).2 =
      (((st.ch_list.filter (·.enabled)).take buf.length).map fun c =>
        if c.ccif then
          { status :=
              if c.ccof then .OVERCAPTURE
              else if c.ccr > st.timeout_ticks then .TIMEOUT
              else .OK,
            value_us := c.ccr * KP_CAP_RES_US }
        else { status := .TIMEOUT, value_us := 2 ^ 30 - 1 }) ++
      List.replicate
        (buf.length - ((st.ch_list.filter (·.enabled)).take buf.length).length)
        ⟨.TIMEOUT, 0⟩ := by
  have hres : ∀ c ∈ st.ch_list,
      kp_cap_finish_ch_res st.timeout_ticks c =
        if c.ccif then
          { status :=
              if c.ccof then .OVERCAPTURE
              else if c.ccr > st.timeout_ticks then .TIMEOUT
              else .OK,
            value_us := c.ccr * KP_CAP_RES_US }
        else { status := .TIMEOUT, value_us := 2 ^ 30 - 1 } := by
    intro c hc
    have hb := hccr c hc
    have h20 : KP_CAP_RES_US = 20 := rfl
    have hv : c.ccr * KP_CAP_RES_US % 4294967296 % 1073741824 =
        c.ccr * KP_CAP_RES_US := by
      rw [h20]; omega
    unfold kp_cap_finish_ch_res
    by_cases h1 : c.ccif <;> by_cases h2 : c.ccof <;>
      by_cases h3 : st.timeout_ticks < c.ccr <;>
      simp [h1, h2, h3, hv]
  constructor
  · simp [kp_cap_finish, hdone, habort]
  · simp only [kp_cap_finish, hdone, habort, Bool.not_true, Bool.false_eq_true,
      if_false, Bool.true_eq_false]
    rw [kp_cap_finish_walk_eq]
    congr 1
    · apply List.map_congr_left
      intro c hc
      exact hres c (List.mem_of_mem_filter (List.mem_of_mem_take hc))
    · rw [List.length_map]
      rfl

/-- Witness for C6: one enabled captured channel (OK), one enabled
uncaptured channel (sentinel TIMEOUT), a two-slot buffer. -/
theorem kp_cap_finish_ok_witness :
    (kp_cap_finish
        { ch_list := [⟨true, true, false, 100⟩, ⟨true, false, false, 0⟩],
          timeout_ticks := 50000, aborted := false, done := true }
        [kpCapChResZero, kpCapChResZero]).1 = .OK ∧
    (kp_cap_finish
        { ch_list := [⟨true, true, false, 100⟩, ⟨true, false, false, 0⟩],
          timeout_ticks := 50000, aborted := false, done := true }
        [kpCapChResZero, kpCapChResZero]).2 =
      [⟨.OK, 2000⟩, ⟨.TIMEOUT, 2 ^ 30 - 1⟩] := by
  have h := kp_cap_finish_ok
    { ch_list := [⟨true, true, false, 100⟩, ⟨true, false, false, 0⟩],
      timeout_ticks := 50000, aborted := false, done := true }
    [kpCapChResZero, kpCapChResZero] (by decide) (by decide) (by decide)
  exact ⟨h.1, by rw [h.2]; decide⟩

/-! ### Sampler (src/kp_sample.c) -/

/-- `enum kp_sample_rc` (src/kp_sample.h). -/
inductive KpSampleRc where
  | OK
  | ABORTED
  | OFF
deriving DecidableEq, Repr

/-- Outcome of the pre-move part of `kp_sample` (src/kp_sample.c:43-66):
either it returns early — `off` (`KP_SAMPLE_RC_OFF`), or `okZero` with the
zero-filled result buffer (`KP_SAMPLE_RC_OK`) — or it `proceed`s to arm
the capture (`kp_cap_start`) and start the move
(`kp_act_start_move_to`). -/
inductive KpSampleStart where
  | off
  | okZero (results : List KpCapChRes)
  | proceed
deriving DecidableEq, Repr

/-- The pre-move part of `kp_sample` (src/kp_sample.c:43-66): `start` is
`kp_act_locate()` (`none` when the actuator is off and the position
invalid).  When the target equals the current position, the result buffer
is `memset` to zero (`ch_res_num` timed-out entries) and the function
returns OK without arming a capture or starting a move. -/
def kp_sample_start (start : Option Int) (target : Int) (ch_res_num : Nat) :
    KpSampleStart :=
  match start with
  | none => .off
  | some pos =>
    if target = pos then .okZero (List.replicate ch_res_num kpCapChResZero)
    else .proceed

/-- C9.  When the actuator is powered on (its position reads `p`) and the
target equals the current position, `kp_sample` fills every requested
result slot with a TIMEOUT-status, zero-value entry and returns OK — the
`okZero` outcome, which by construction arms no capture and starts no
move. -/
theorem kp_sample_start_at_target (p : Int) (ch_res_num : Nat) :
    kp_sample_start (some p) p ch_res_num =
      .okZero (List.replicate ch_res_num ⟨.TIMEOUT, 0⟩) := by
  simp [kp_sample_start, kpCapChResZero]

/-! ### The `set timeout` command (src/kp.c:537-559) -/

/-- `kp_cmd_set_timeout` (src/kp.c:537-559) after a successful parse of the
non-negative value `v`: returns the command's exit code paired with the
resulting stored `kp_cap_conf.timeout_us`.  The C comparison
`(uint32_t)timeout_us + kp_cap_conf.bounce_us >= KP_CAP_TIME_MAX_US` is
`uint32_t` arithmetic (the cast of the parsed non-negative `long` is the
identity for values below `2^31`). -/
def kp_cmd_set_timeout (timeout_us bounce_us v : Nat) : Nat × Nat :=
  if (v + bounce_us) % 2 ^ 32 ≥ KP_CAP_TIME_MAX_US then (1, timeout_us)
  else (0, v)

/-- C7, counterexample: with the default bounce time 50000 us, the request
`v = 1260700` has `v + bounce` exactly equal to the maximum capture time
(1310700 us) — the claim says such a `v` is accepted, but the command's
`>=` comparison rejects it (exit code 1, timeout unchanged). -/
theorem kp_cmd_set_timeout_rejects_eq_max :
    ¬ (1260700 + 50000 > KP_CAP_TIME_MAX_US) ∧
    kp_cmd_set_timeout 1000000 50000 1260700 = (1, 1000000) := by
  constructor
  · decide
  · decide

/-- C7, amended.  `set timeout v` fails (exit code 1) and leaves the stored
timeout unchanged exactly when `v` plus the configured bounce time is
greater than **or equal to** the maximum capture time `65535 × 20` us;
otherwise it stores `v` and returns 0.  (`v` is bounded by the
non-negative-`long` parse, the stored bounce by its own command's
check.) -/
theorem kp_cmd_set_timeout_spec (t b v : Nat)
    (hv : v < 2 ^ 31) (hb : b ≤ KP_CAP_TIME_MAX_US) :
    (((kp_cmd_set_timeout t b v).1 = 1 ∧ (kp_cmd_set_timeout t b v).2 = t) ↔
      v + b ≥ KP_CAP_TIME_MAX_US) ∧
    (v + b < KP_CAP_TIME_MAX_US → kp_cmd_set_timeout t b v = (0, v)) := by
  have hmax : KP_CAP_TIME_MAX_US = 1310700 := rfl
  have hmod : (v + b) % 2 ^ 32 = v + b := Nat.mod_eq_of_lt (by omega)
  unfold kp_cmd_set_timeout
  rw [hmod]
  by_cases h : v + b ≥ KP_CAP_TIME_MAX_US
  · simp [h]
  · rw [if_neg h]
    exact ⟨⟨fun h1 => absurd h1.1 (by simp), fun h1 => absurd h1 h⟩,
      fun _ => rfl⟩

/-- Witness for the amended C7: the default configuration rejects
1260700 us (equality case) and accepts 1260699 us. -/
theorem kp_cmd_set_timeout_spec_witness :
    ((kp_cmd_set_timeout 1000000 50000 1260700).1 = 1 ∧
      (kp_cmd_set_timeout 1000000 50000 1260700).2 = 1000000) ∧
    kp_cmd_set_timeout 1000000 50000 1260699 = (0, 1260699) :=
  ⟨(kp_cmd_set_timeout_spec 1000000 50000 1260700 (by decide)
      (by decide)).1.mpr (by decide),
   (kp_cmd_set_timeout_spec 1000000 50000 1260699 (by decide)
      (by decide)).2 (by decide)⟩

/-! ### Measurement histogram (src/kp_meas.c:465-524, mirrored by
src/kp.c:1615-1690) -/

/-- A measurement as used by the histogram printer: the capture
configuration, the even-pass direction flag, the number of passes made,
and the flat channel-result array. -/
structure KpMeas where
  conf : KpCapConf
  even_down : Bool
  passes : Nat
  ch_res_list : List KpCapChRes
deriving DecidableEq, Repr

/-- One pass of the histogram scan's walk (the inner `for (ch = 0; ...)`
of src/kp_meas.c:503-518): for each channel enabled in the pass direction
`down`, consume the next entry of the flat result array; return the
entries visited this pass and the remaining array. -/
def kp_meas_visited_pass (ch_list : List KpCapChConf) (down : Bool)
    (res : List KpCapChRes) : List KpCapChRes × List KpCapChRes :=
  match ch_list with
  | [] => ([], res)
  | c :: rest =>
    if c.dirs &&& kp_cap_dirs_from_down down ≠ 0 then
      match res with
      | [] => ([], [])
      | r :: res' =>
        let acc := kp_meas_visited_pass rest down res'
        (r :: acc.1, acc.2)
    else kp_meas_visited_pass rest down res

/-- The outer pass loop of the histogram scan (src/kp_meas.c:503-518):
pass `p` moves in direction `(p & 1) ^ even_down`; `remaining` counts the
passes left. -/
def kp_meas_visited_go (conf : KpCapConf) (even_down : Bool) :
    Nat → Nat → List KpCapChRes → List KpCapChRes
  | 0, _, _ => []
  | remaining + 1, p, res =>
    let down := xor (decide (p % 2 = 1)) even_down
    let acc := kp_meas_visited_pass conf.ch_list down res
    acc.1 ++ kp_meas_visited_go conf even_down remaining (p + 1) acc.2

/-- The channel results visited by the histogram min/max scan, in walking
order. -/
def kp_meas_visited (m : KpMeas) : List KpCapChRes :=
  kp_meas_visited_go m.conf m.even_down m.passes 0 m.ch_res_list

/-- `true` for the statuses the histogram counts
(src/kp_meas.c:509-511): OK or OVERCAPTURE. -/
def kp_cap_ch_res_is_captured (r : KpCapChRes) : Bool :=
  r.status = KpCapChStatus.OK ∨ r.status = KpCapChStatus.OVERCAPTURE

/-- The min/max accumulation of src/kp_meas.c:500-518: starting from
`min = UINT32_MAX, max = 0`, fold the captured entries' values with
`MIN` / `MAX`. -/
def kp_meas_histogram_minmax (m : KpMeas) : Nat × Nat :=
  (kp_meas_visited m).foldl
    (fun acc r =>
      if kp_cap_ch_res_is_captured r then
        (min acc.1 r.value_us, max acc.2 r.value_us)
      else acc)
    (2 ^ 32 - 1, 0)

/-- `uint32_t` subtraction `a - b` (wrapping), for `a, b < 2^32`. -/
def uint32_sub (a b : Nat) : Nat := (a + 2 ^ 32 - b) % 2 ^ 32

/-- The histogram bin width `step_size` (src/kp_meas.c:520-524, likewise
src/kp.c:1664-1668): `(max - min) / STEP_NUM` with `STEP_NUM = 16`,
replaced by `KP_CAP_RES_US` when zero. -/
def kp_meas_histogram_step_size (m : KpMeas) : Nat :=
  let mm := kp_meas_histogram_minmax m
  let step_size := uint32_sub mm.2 mm.1 / 16
  if step_size = 0 then KP_CAP_RES_US else step_size

/-- The values of the captured (OK or OVERCAPTURE) entries the histogram
scan visits, in walking order. -/
def kp_meas_captured_values (m : KpMeas) : List Nat :=
  (kp_meas_visited m).filterMap fun r =>
    if kp_cap_ch_res_is_captured r then some r.value_us else none

/-- A concrete measurement for C8: one channel enabled in both directions
(the other disabled), two passes, captured values 0 and 160 us. -/
def kpMeasC8 : KpMeas :=
  { conf := { ch_list := [⟨3, true, ""⟩, ⟨0, true, ""⟩],
              timeout_us := 1000000, bounce_us := 50000 },
    even_down := false,
    passes := 2,
    ch_res_list := [⟨.OK, 0⟩, ⟨.OK, 160⟩] }

/-- C8, counterexample: for the measurement with captured values 0 and
160 us (min 0, max 160), the bin width the code uses is
`(160 - 0) / 16 = 10` us, not `max(tick, (max - min) / 16) = 20` us as
claimed — the tick is substituted only when the quotient is zero. -/
theorem kp_meas_histogram_step_size_not_max :
    kp_meas_histogram_step_size kpMeasC8 = 10 ∧
    max KP_CAP_RES_US
      (uint32_sub (kp_meas_histogram_minmax kpMeasC8).2
          (kp_meas_histogram_minmax kpMeasC8).1 / 16) = 20 ∧
    kp_meas_histogram_step_size kpMeasC8 ≠
      max KP_CAP_RES_US
        (uint32_sub (kp_meas_histogram_minmax kpMeasC8).2
            (kp_meas_histogram_minmax kpMeasC8).1 / 16) := by
  refine ⟨by decide, by decide, by decide⟩

/-! Helper lemmas for the amended C8. -/

/-- The paired min/max fold over the visited entries equals separate
min/max folds over the captured values. -/
theorem minmax_foldl_split (l : List KpCapChRes) (a b : Nat) :
    l.foldl
      (fun acc r =>
        if kp_cap_ch_res_is_captured r then
          (min acc.1 r.value_us, max acc.2 r.value_us)
        else acc)
      (a, b) =
    ((l.filterMap fun r =>
        if kp_cap_ch_res_is_captured r then some r.value_us else none).foldl
          min a,
     (l.filterMap fun r =>
        if kp_cap_ch_res_is_captured r then some r.value_us else none).foldl
          max b) := by
  induction l generalizing a b with
  | nil => simp
  | cons r rest ih =>
    by_cases h : kp_cap_ch_res_is_captured r <;>
      simp [h, ih]

theorem foldl_min_le_init (l : List Nat) (a : Nat) : l.foldl min a ≤ a := by
  induction l generalizing a with
  | nil => simp
  | cons x xs ih => exact le_trans (ih _) (min_le_left _ _)

theorem le_foldl_max_init (l : List Nat) (a : Nat) : a ≤ l.foldl max a := by
  induction l generalizing a with
  | nil => simp
  | cons x xs ih => exact le_trans (le_max_left _ _) (ih _)

theorem foldl_min_le_mem {l : List Nat} {v : Nat} (hv : v ∈ l) (a : Nat) :
    l.foldl min a ≤ v := by
  induction l generalizing a with
  | nil => cases hv
  | cons x xs ih =>
    rcases List.mem_cons.mp hv with rfl | hv'
    · exact le_trans (foldl_min_le_init xs (min a v)) (min_le_right _ _)
    · exact ih hv' _

theorem mem_le_foldl_max {l : List Nat} {v : Nat} (hv : v ∈ l) (a : Nat) :
    v ≤ l.foldl max a := by
  induction l generalizing a with
  | nil => cases hv
  | cons x xs ih =>
    rcases List.mem_cons.mp hv with rfl | hv'
    · exact le_trans (le_max_right _ _) (le_foldl_max_init xs (max a v))
    · exact ih hv' _

theorem foldl_max_lt {l : List Nat} {c : Nat} (hl : ∀ v ∈ l, v < c)
    {a : Nat} (ha : a < c) : l.foldl max a < c := by
  induction l generalizing a with
  | nil => simpa
  | cons x xs ih =>
    simp only [List.foldl_cons]
    exact ih (fun v hv => hl v (List.mem_cons_of_mem _ hv))
      (max_lt ha (hl x (List.mem_cons_self _ _)))

/-- C8, amended.  For every measurement with at least one captured (OK or
OVERCAPTURE) value (all values fitting the 30-bit result field), the
histogram bin width is `(max - min) / 16` over the captured values of all
channels and passes, with the tick (20 us) substituted only when that
quotient is zero (i.e. when `max - min < 16`). -/
theorem kp_meas_histogram_step_size_eq (m : KpMeas)
    (hne : kp_meas_captured_values m ≠ [])
    (hlt : ∀ v ∈ kp_meas_captured_values m, v < 2 ^ 30) :
    kp_meas_histogram_step_size m =
      (let mn := (kp_meas_captured_values m).foldl min (2 ^ 32 - 1)
       let mx := (kp_meas_captured_values m).foldl max 0
       if (mx - mn) / 16 = 0 then KP_CAP_RES_US else (mx - mn) / 16) := by
  obtain ⟨v, hv⟩ := List.exists_mem_of_ne_nil _ hne
  have hsplit := minmax_foldl_split (kp_meas_visited m) (2 ^ 32 - 1) 0
  have hmm : kp_meas_histogram_minmax m =
      ((kp_meas_captured_values m).foldl min (2 ^ 32 - 1),
       (kp_meas_captured_values m).foldl max 0) := by
    unfold kp_meas_histogram_minmax kp_meas_captured_values
    exact hsplit
  have hmn := foldl_min_le_mem hv (2 ^ 32 - 1)
  have hvmx := mem_le_foldl_max hv 0
  have hmx : (kp_meas_captured_values m).foldl max 0 < 2 ^ 30 :=
    foldl_max_lt hlt (by norm_num)
  have hle : (kp_meas_captured_values m).foldl min (2 ^ 32 - 1) ≤
      (kp_meas_captured_values m).foldl max 0 := le_trans hmn hvmx
  have hsub : uint32_sub ((kp_meas_captured_values m).foldl max 0)
      ((kp_meas_captured_values m).foldl min (2 ^ 32 - 1)) =
      (kp_meas_captured_values m).foldl max 0 -
        (kp_meas_captured_values m).foldl min (2 ^ 32 - 1) := by
    unfold uint32_sub
    omega
  unfold kp_meas_histogram_step_size
  rw [hmm]
  dsimp only
  rw [hsub]

/-- Witness for the amended C8 at the concrete measurement of the
counterexample. -/
theorem kp_meas_histogram_step_size_eq_witness :
    kp_meas_histogram_step_size kpMeasC8 =
      (let mn := (kp_meas_captured_values kpMeasC8).foldl min (2 ^ 32 - 1)
       let mx := (kp_meas_captured_values kpMeasC8).foldl max 0
       if (mx - mn) / 16 = 0 then KP_CAP_RES_US else (mx - mn) / 16) :=
  kp_meas_histogram_step_size_eq kpMeasC8 (by decide) (by decide)

/-! ### The `tighten` command (src/kp.c:1057-1258)

Actuator positions are `int32_t` step counts (`Int` here).  The revision of
the actuator driver in src/kp_act.c keeps a plain step counter that starts
at zero when powered on, so its invalid-position sentinel lies outside the
range of real positions. -/

/-- `KP_ACT_POS_INVALID` for the plain-step-counter actuator revision
(src/kp_act.c).  Modelled from the spec: the spec (§3) specifies a sentinel
value marking "not available"; the header in the tree
(src/kp_act.h, the older power-token revision) is not the one matching
src/kp_act.c and src/kp.c, which treat positions as plain `int32_t` step
counts, so the sentinel is taken to be `INT32_MIN`, outside the travel
range.  The theorems below depend only on it being one fixed value that
valid inputs differ from. -/
def KP_ACT_POS_INVALID : Int := -(2 ^ 31)

/-- `kp_act_pos_is_valid` (src/kp_act.h): any position other than the
sentinel. -/
def kp_act_pos_is_valid (pos : Int) : Prop := pos ≠ KP_ACT_POS_INVALID

instance (pos : Int) : Decidable (kp_act_pos_is_valid pos) := by
  unfold kp_act_pos_is_valid; infer_instance

/-- The bisection loop of `kp_cmd_tighten` (src/kp.c:1158-1183), with the
`CHECK` macro's call to `kp_check` abstracted as the oracle `check`
(`none` when `kp_check` fails and the command returns 1 at once, `some
triggers` on success).  The state is the C locals
`(top, bottom, middle, next_top, next_bottom)`; `fuel` bounds the number
of iterations (`none` = fuel exhausted); `some none` = command error
return; `some (some (top, bottom))` = loop exited by `break`.
`(top + bottom) / 2` is C division, truncating towards zero
(`Int.tdiv`). -/
def kp_cmd_tighten_loop1 (check : Int → Int → Option Nat) (passes : Nat)
    (steps : Int) :
    Nat → Int → Int → Int → Int → Int → Option (Option (Int × Int))
  | 0, _, _, _, _, _ => none
  | fuel + 1, top, bottom, middle, next_top, next_bottom =>
    match check next_top next_bottom with
    | none => some none
    | some triggers =>
      if triggers < passes then
        if next_bottom = middle then
          kp_cmd_tighten_loop1 check passes steps fuel
            top bottom middle middle bottom
        else some (some (top, bottom))
      else
        if next_bottom - next_top < steps * 2 then
          some (some (next_top, next_bottom))
        else
          kp_cmd_tighten_loop1 check passes steps fuel
            next_top next_bottom (Int.tdiv (next_top + next_bottom) 2)
            next_top (Int.tdiv (next_top + next_bottom) 2)

/-- The sliding loop of `kp_cmd_tighten` (src/kp.c:1186-1208): while the
accepted range is valid and its width lies strictly between `steps` and
`2 × steps`, try the top-aligned window, then the bottom-aligned one;
stop when neither is reliable.  Encoding as in
`kp_cmd_tighten_loop1`. -/
def kp_cmd_tighten_loop2 (check : Int → Int → Option Nat) (passes : Nat)
    (steps : Int) :
    Nat → Int → Int → Option (Option (Int × Int))
  | 0, _, _ => none
  | fuel + 1, top, bottom =>
    if kp_act_pos_is_valid top ∧ kp_act_pos_is_valid bottom ∧
        bottom - top > steps ∧ bottom - top < steps * 2 then
      match check top (top + steps) with
      | none => some none
      | some triggers =>
        if triggers < passes then
          match check (bottom - steps) bottom with
          | none => some none
          | some triggers2 =>
            if triggers2 < passes then some (some (top, bottom))
            else
              kp_cmd_tighten_loop2 check passes steps fuel
                (bottom - steps) bottom
        else kp_cmd_tighten_loop2 check passes steps fuel top (top + steps)
    else some (some (top, bottom))

/-- The core of `kp_cmd_tighten` (src/kp.c:1158-1257) after its early
checks and argument parsing: starting from the stored positions
`(stored_top, stored_bottom)`, run the bisection loop then the sliding
loop, and — when the final `(top, bottom)` are both valid — store them and
return exit code 0; otherwise leave the stored positions and return 1.
Oracle failure (`some none` from a loop) is the command's error return 1.
The result is `(stored top, stored bottom, exit code)`; `none` = fuel
exhausted. -/
def kp_cmd_tighten_core (check : Int → Int → Option Nat) (steps : Int)
    (passes : Nat) (stored_top stored_bottom : Int) (fuel : Nat) :
    Option (Int × Int × Nat) :=
  match kp_cmd_tighten_loop1 check passes steps fuel
      KP_ACT_POS_INVALID KP_ACT_POS_INVALID KP_ACT_POS_INVALID
      stored_top stored_bottom with
  | none => none
  | some none => some (stored_top, stored_bottom, 1)
  | some (some (top, bottom)) =>
    match kp_cmd_tighten_loop2 check passes steps fuel top bottom with
    | none => none
    | some none => some (stored_top, stored_bottom, 1)
    | some (some (top2, bottom2)) =>
      if kp_act_pos_is_valid top2 ∧ kp_act_pos_is_valid bottom2 then
        some (top2, bottom2, 0)
      else some (stored_top, stored_bottom, 1)

/-- C truncating division by two lands strictly between the operands of a
sum whose terms are at least two apart. -/
theorem tdiv_two_between {a b : Int} (h : a + 2 ≤ b) :
    a < Int.tdiv (a + b) 2 ∧ Int.tdiv (a + b) 2 < b := by
  rcases le_or_lt 0 (a + b) with h0 | h0
  · rw [Int.tdiv_eq_ediv h0 (by norm_num)]
    omega
  · have hneg := Int.neg_tdiv (a + b) 2
    have h2 : Int.tdiv (-(a + b)) 2 = -(a + b) / 2 :=
      Int.tdiv_eq_ediv (by omega) (by norm_num)
    have h3 : Int.tdiv (a + b) 2 = -(-(a + b) / 2) := by omega
    rw [h3]
    omega

/-- Invariant of the bisection loop: if every tried range stays within the
input range and the accepted pair is either still unset (both sentinel) or
a strict sub-range, the same holds of the pair the loop breaks with. -/
theorem kp_cmd_tighten_loop1_inv (check : Int → Int → Option Nat)
    (passes : Nat) (steps : Int) (hsteps : 1 ≤ steps) (t_in b_in : Int) :
    ∀ (fuel : Nat) (top bottom middle next_top next_bottom T B : Int),
      t_in ≤ next_top → next_top < next_bottom → next_bottom ≤ b_in →
      ((top = KP_ACT_POS_INVALID ∧ bottom = KP_ACT_POS_INVALID) ∨
        (t_in ≤ top ∧ top < bottom ∧ bottom ≤ b_in)) →
      (next_bottom = middle →
        t_in ≤ middle ∧ middle < bottom ∧ bottom ≤ b_in) →
      kp_cmd_tighten_loop1 check passes steps fuel
          top bottom middle next_top next_bottom = some (some (T, B)) →
      (T = KP_ACT_POS_INVALID ∧ B = KP_ACT_POS_INVALID) ∨
        (t_in ≤ T ∧ T < B ∧ B ≤ b_in) := by
  intro fuel
  induction fuel with
  | zero => intro _ _ _ _ _ _ _ _ _ _ _ _ hrun; exact absurd hrun (by simp [kp_cmd_tighten_loop1])
  | succ fuel ih =>
    intro top bottom middle next_top next_bottom T B hta htb htc hacc hmid hrun
    unfold kp_cmd_tighten_loop1 at hrun
    cases hchk : check next_top next_bottom with
    | none => rw [hchk] at hrun; exact absurd hrun (by simp)
    | some triggers =>
      rw [hchk] at hrun
      dsimp only at hrun
      by_cases hfail : triggers < passes
      · rw [if_pos hfail] at hrun
        by_cases heq : next_bottom = middle
        · rw [if_pos heq] at hrun
          obtain ⟨hm1, hm2, hm3⟩ := hmid heq
          exact ih top bottom middle middle bottom T B hm1 hm2 hm3 hacc
            (fun habs => absurd habs (by omega)) hrun
        · rw [if_neg heq] at hrun
          obtain ⟨rfl, rfl⟩ : top = T ∧ bottom = B := by
            simpa using hrun
          exact hacc
      · rw [if_neg hfail] at hrun
        by_cases hnarrow : next_bottom - next_top < steps * 2
        · rw [if_pos hnarrow] at hrun
          obtain ⟨rfl, rfl⟩ : next_top = T ∧ next_bottom = B := by
            simpa using hrun
          exact Or.inr ⟨hta, htb, htc⟩
        · rw [if_neg hnarrow] at hrun
          have hwide : next_top + 2 ≤ next_bottom := by omega
          obtain ⟨hlo, hhi⟩ := tdiv_two_between hwide
          exact ih next_top next_bottom (Int.tdiv (next_top + next_bottom) 2)
            next_top (Int.tdiv (next_top + next_bottom) 2) T B
            hta hlo (by omega)
            (Or.inr ⟨hta, htb, htc⟩)
            (fun _ => ⟨by omega, by omega, htc⟩) hrun

/-- Invariant of the sliding loop: it preserves "unset or a sub-range of
the input range". -/
theorem kp_cmd_tighten_loop2_inv (check : Int → Int → Option Nat)
    (passes : Nat) (steps : Int) (_hsteps : 1 ≤ steps) (t_in b_in : Int) :
    ∀ (fuel : Nat) (top bottom T B : Int),
      ((top = KP_ACT_POS_INVALID ∧ bottom = KP_ACT_POS_INVALID) ∨
        (t_in ≤ top ∧ top < bottom ∧ bottom ≤ b_in)) →
      kp_cmd_tighten_loop2 check passes steps fuel top bottom =
        some (some (T, B)) →
      (T = KP_ACT_POS_INVALID ∧ B = KP_ACT_POS_INVALID) ∨
        (t_in ≤ T ∧ T < B ∧ B ≤ b_in) := by
  intro fuel
  induction fuel with
  | zero => intro _ _ _ _ _ hrun; exact absurd hrun (by simp [kp_cmd_tighten_loop2])
  | succ fuel ih =>
    intro top bottom T B hacc hrun
    unfold kp_cmd_tighten_loop2 at hrun
    by_cases hcond : kp_act_pos_is_valid top ∧ kp_act_pos_is_valid bottom ∧
        bottom - top > steps ∧ bottom - top < steps * 2
    · rw [if_pos hcond] at hrun
      obtain ⟨hvt, hvb, hw1, hw2⟩ := hcond
      have hsub : t_in ≤ top ∧ top < bottom ∧ bottom ≤ b_in := by
        rcases hacc with ⟨h1, _⟩ | h
        · exact absurd h1 hvt
        · exact h
      cases hchk : check top (top + steps) with
      | none => rw [hchk] at hrun; exact absurd hrun (by simp)
      | some triggers =>
        rw [hchk] at hrun
        dsimp only at hrun
        by_cases hfail : triggers < passes
        · rw [if_pos hfail] at hrun
          cases hchk2 : check (bottom - steps) bottom with
          | none => rw [hchk2] at hrun; exact absurd hrun (by simp)
          | some triggers2 =>
            rw [hchk2] at hrun
            dsimp only at hrun
            by_cases hfail2 : triggers2 < passes
            · rw [if_pos hfail2] at hrun
              obtain ⟨rfl, rfl⟩ : top = T ∧ bottom = B := by
                simpa using hrun
              exact Or.inr hsub
            · rw [if_neg hfail2] at hrun
              exact ih (bottom - steps) bottom T B
                (Or.inr ⟨by omega, by omega, hsub.2.2⟩) hrun
        · rw [if_neg hfail] at hrun
          exact ih top (top + steps) T B
            (Or.inr ⟨hsub.1, by omega, by omega⟩) hrun
    · rw [if_neg hcond] at hrun
      obtain ⟨rfl, rfl⟩ : top = T ∧ bottom = B := by
        simpa using hrun
      exact hacc

/-- C4.  Whenever the tighten command succeeds (exit code 0) starting from
valid stored positions with `top_in < bottom_in`, the stored range does
not grow: the new stored top is `≥ top_in`, the new stored bottom is
`≤ bottom_in`, and the new top is strictly below the new bottom. -/
theorem kp_cmd_tighten_success_shrinks (check : Int → Int → Option Nat)
    (steps : Int) (passes : Nat) (t_in b_in : Int) (fuel : Nat) (T B : Int)
    (_hvt : kp_act_pos_is_valid t_in) (hvb : kp_act_pos_is_valid b_in)
    (hlt : t_in < b_in) (hsteps : 1 ≤ steps)
    (hrun : kp_cmd_tighten_core check steps passes t_in b_in fuel =
      some (T, B, 0)) :
    t_in ≤ T ∧ B ≤ b_in ∧ T < B := by
  unfold kp_cmd_tighten_core at hrun
  cases h1 : kp_cmd_tighten_loop1 check passes steps fuel
      KP_ACT_POS_INVALID KP_ACT_POS_INVALID KP_ACT_POS_INVALID t_in b_in with
  | none => rw [h1] at hrun; exact absurd hrun (by simp)
  | some o1 =>
    rw [h1] at hrun
    cases o1 with
    | none =>
      exact absurd hrun (by simp)
    | some p1 =>
      obtain ⟨top1, bottom1⟩ := p1
      dsimp only at hrun
      have hinv1 := kp_cmd_tighten_loop1_inv check passes steps hsteps t_in b_in
        fuel KP_ACT_POS_INVALID KP_ACT_POS_INVALID KP_ACT_POS_INVALID
        t_in b_in top1 bottom1 (le_refl _) hlt (le_refl _)
        (Or.inl ⟨rfl, rfl⟩) (fun habs => absurd habs hvb) h1
      cases h2 : kp_cmd_tighten_loop2 check passes steps fuel top1 bottom1 with
      | none => rw [h2] at hrun; exact absurd hrun (by simp)
      | some o2 =>
        rw [h2] at hrun
        cases o2 with
        | none => exact absurd hrun (by simp)
        | some p2 =>
          obtain ⟨top2, bottom2⟩ := p2
          dsimp only at hrun
          have hinv2 := kp_cmd_tighten_loop2_inv check passes steps hsteps
            t_in b_in fuel top1 bottom1 top2 bottom2 hinv1 h2
          by_cases hval : kp_act_pos_is_valid top2 ∧ kp_act_pos_is_valid bottom2
          · rw [if_pos hval] at hrun
            obtain ⟨rfl, rfl, -⟩ : top2 = T ∧ bottom2 = B ∧ (0 : Nat) = 0 := by
              simpa using hrun
            rcases hinv2 with ⟨habs, -⟩ | ⟨ha, hb, hc⟩
            · exact absurd habs hval.1
            · exact ⟨ha, hc, hb⟩
          · rw [if_neg hval] at hrun
            exact absurd hrun (by simp)

/-- Witness for C4: a trigger oracle that always reports all passes
triggered tightens `[0, 4]` down to the stored range `[0, 1]`. -/
theorem kp_cmd_tighten_success_shrinks_witness :
    (0 : Int) ≤ 0 ∧ (1 : Int) ≤ 4 ∧ (0 : Int) < 1 :=
  kp_cmd_tighten_success_shrinks (fun _ _ => some 1) 1 1 0 4 10 0 1
    (by decide) (by decide) (by decide) (by decide) (by decide)

/-- C5, counterexample: with an oracle that never reports a trigger, the
tighten core fails (exit code 1) but leaves the stored positions `(0, 64)`
unchanged — neither of them is set to the invalid sentinel, contrary to
the claim. -/
theorem kp_cmd_tighten_failure_no_sentinel :
    kp_cmd_tighten_core (fun _ _ => some 0) 1 1 0 64 5 = some (0, 64, 1) ∧
    kp_act_pos_is_valid (0 : Int) ∧ kp_act_pos_is_valid (64 : Int) := by
  refine ⟨by decide, by decide, by decide⟩

/-- C5, amended.  Whenever the tighten command fails to find a reliable
range (exit code 1, including sampler-failure returns), it leaves the
stored top and bottom positions unchanged — it does not write the invalid
sentinel to them. -/
theorem kp_cmd_tighten_failure_keeps_range (check : Int → Int → Option Nat)
    (steps : Int) (passes : Nat) (t_in b_in : Int) (fuel : Nat) (T B : Int)
    (hrun : kp_cmd_tighten_core check steps passes t_in b_in fuel =
      some (T, B, 1)) :
    T = t_in ∧ B = b_in := by
  unfold kp_cmd_tighten_core at hrun
  cases h1 : kp_cmd_tighten_loop1 check passes steps fuel
      KP_ACT_POS_INVALID KP_ACT_POS_INVALID KP_ACT_POS_INVALID t_in b_in with
  | none => rw [h1] at hrun; exact absurd hrun (by simp)
  | some o1 =>
    rw [h1] at hrun
    cases o1 with
    | none =>
      obtain ⟨rfl, rfl, -⟩ : t_in = T ∧ b_in = B ∧ (1 : Nat) = 1 := by
        simpa using hrun
      exact ⟨rfl, rfl⟩
    | some p1 =>
      obtain ⟨top1, bottom1⟩ := p1
      dsimp only at hrun
      cases h2 : kp_cmd_tighten_loop2 check passes steps fuel top1 bottom1 with
      | none => rw [h2] at hrun; exact absurd hrun (by simp)
      | some o2 =>
        rw [h2] at hrun
        cases o2 with
        | none =>
          obtain ⟨rfl, rfl, -⟩ : t_in = T ∧ b_in = B ∧ (1 : Nat) = 1 := by
            simpa using hrun
          exact ⟨rfl, rfl⟩
        | some p2 =>
          obtain ⟨top2, bottom2⟩ := p2
          dsimp only at hrun
          by_cases hval : kp_act_pos_is_valid top2 ∧ kp_act_pos_is_valid bottom2
          · rw [if_pos hval] at hrun
            exact absurd hrun (by simp)
          · rw [if_neg hval] at hrun
            obtain ⟨rfl, rfl, -⟩ : t_in = T ∧ b_in = B ∧ (1 : Nat) = 1 := by
              simpa using hrun
            exact ⟨rfl, rfl⟩

/-- Witness for the amended C5 at the concrete failing run. -/
theorem kp_cmd_tighten_failure_keeps_range_witness :
    (0 : Int) = 0 ∧ (64 : Int) = 64 :=
  kp_cmd_tighten_failure_keeps_range (fun _ _ => some 0) 1 1 0 64 5 0 64
    (by decide)

end Keypecker
